import Mathlib

/-
Verification of the incremental styling engine of pygments-gui
(`src/pygments_gui/wx/richtext.py` and `src/pygments_gui/util.py`).

The model is a shallow embedding: Python strings become `List Char`,
Python dicts become association lists, the wx widget becomes an
immutable record plus an explicit event trace recording every call the
formatter makes on it (BeginSuppressUndo, Freeze, SetBackgroundColour,
SetStyleEx, EndSuppressUndo, Thaw, Update, Refresh), and a raising
token iterator is a stream item marking the point where iteration
raises.  Exceptions are modelled with an `Option Unit` error component;
the formatter state carried alongside reflects the in-place mutations
performed before the raise, exactly as in Python.
-/

namespace PygmentsGui

/-- Characters of a widget text; models a Python `str`. -/
abbrev Text := List Char

/-- Opaque pygments token type (`pygments.token._TokenType`). -/
abbrev TokenT := Nat

/-- Python slice `s[a:b]` for natural bounds (clamping, never raising). -/
def pySlice (s : Text) (a b : Nat) : Text :=
  (s.take b).drop a

/-- Association-list lookup; models Python `dict` access / `dict.get`. -/
def dictGet {K A : Type} [DecidableEq K] : List (K × A) → K → Option A
  | [], _ => none
  | (k0, v0) :: rest, k => if k = k0 then some v0 else dictGet rest k

/-- Association-list update; models Python `dict` assignment. -/
def dictSet {K A : Type} [DecidableEq K] : List (K × A) → K → A → List (K × A)
  | [], k, v => [(k, v)]
  | (k0, v0) :: rest, k, v =>
      if k = k0 then (k0, v) :: rest else (k0, v0) :: dictSet rest k v

/-! wx constants used by `get_rtc_style`; the concrete numerals are
irrelevant, only the two sides of each pair being distinct matters. -/

def FONTFAMILY_ROMAN : Nat := 1
def FONTFAMILY_SWISS : Nat := 2
def FONTFAMILY_TELETYPE : Nat := 3
def FONTSTYLE_NORMAL : Nat := 0
def FONTSTYLE_ITALIC : Nat := 1
def FONTWEIGHT_NORMAL : Nat := 0
def FONTWEIGHT_BOLD : Nat := 1
def TEXT_ATTR_UNDERLINE_NONE : Nat := 0
def TEXT_ATTR_UNDERLINE_SOLID : Nat := 1

/-- The style spec a pygments theme returns from `style_for_token`:
a dict with the font-family hints, the flag fields and an optional
colour string. -/
structure StyleSpec where
  roman : Bool
  sans : Bool
  mono : Bool
  italic : Bool
  bold : Bool
  underline : Bool
  color : Option String
deriving DecidableEq

/-- Spec fields when a theme has no explicit entry for a token. -/
def defaultSpec : StyleSpec :=
  { roman := false, sans := false, mono := false,
    italic := false, bold := false, underline := false, color := none }

/-- A pygments style (theme): a background colour plus a per-token
style-spec table.  `id` stands for the identity of the Python class
object, so that two distinct themes compare unequal the way
`style != self.style` does in `set_style`. -/
structure Theme where
  id : Nat
  background_color : String
  styles : List (TokenT × StyleSpec)
deriving DecidableEq

/-- `style_for_token` of a theme: table lookup with the theme's own
fallback collapsed into a default spec (black box per the spec). -/
def Theme.style_for_token (t : Theme) (tok : TokenT) : StyleSpec :=
  (dictGet t.styles tok).getD defaultSpec

/-- Model of `wx.richtext.RichTextAttr`: the attributes `get_rtc_style`
reads and writes. -/
structure RichTextAttr where
  fontFamily : Nat
  fontStyle : Nat
  fontWeight : Nat
  underlined : Nat
  textColour : Option String
deriving DecidableEq

/-- The wx RichTextCtrl as seen by `format`: identity (`GetId`),
current full text (`GetValue`) and basic style (`GetBasicStyle`). -/
structure Widget where
  id : Nat
  value : Text
  basicStyle : RichTextAttr
deriving DecidableEq

/-- State of a `WxRichTextCtrlFormatter`: the active style plus the two
caches `_styles_cache` and `_last_text_cache`. -/
structure FormatterState where
  style : Theme
  styles_cache : List (TokenT × RichTextAttr)
  last_text_cache : List (Nat × Text)
deriving DecidableEq

/-- `get_style`: returns the current style. -/
def get_style (st : FormatterState) : Theme :=
  st.style

/-- Arguments acceptable to `set_style`: a style name, a style object,
or any other Python value (which fails the `isinstance` assert). -/
inductive StyleArg
  | name (s : String)
  | theme (t : Theme)
  | other (desc : String)
deriving DecidableEq

/-- The error raised by theme resolution (the spec's
`ConfigurationError`; in the source an `assert` failure). -/
structure ConfigError where
  message : String
deriving DecidableEq

/-- Theme-resolution step of `set_style`: a name found in the registry
(`pygments.styles.get_all_styles`) resolves via `get_style_by_name`;
a theme object passes the `isinstance` check unchanged; anything else
fails the assert. -/
def resolveStyle (reg : List (String × Theme)) : StyleArg → Except ConfigError Theme
  | StyleArg.name s =>
      match dictGet reg s with
      | some t => Except.ok t
      | none => Except.error ⟨"Expcted WxRichTextCtrlFormatter style to be a PygmentsStyle object or the name of a pygments style, but instead received " ++ s⟩
  | StyleArg.theme t => Except.ok t
  | StyleArg.other d => Except.error ⟨"Expcted WxRichTextCtrlFormatter style to be a PygmentsStyle object or the name of a pygments style, but instead received " ++ d⟩

/-- `set_style`: resolve the argument; on failure the assert raises
before any mutation, so the state passes through unchanged.  On
success, if the resolved style differs from the current one both
caches are cleared, then the style is stored. -/
def set_style (reg : List (String × Theme)) (st : FormatterState) (a : StyleArg) :
    FormatterState × Option ConfigError :=
  match resolveStyle reg a with
  | Except.error e => (st, some e)
  | Except.ok t =>
      if t ≠ st.style then
        ({ style := t, styles_cache := [], last_text_cache := [] }, none)
      else
        ({ st with style := t }, none)

/-- `__init__`: the base class stores an initial resolved style `t0`,
the two caches are created empty, then `set_style` runs on the
constructor argument. -/
def initFormatter (reg : List (String × Theme)) (t0 : Theme) (a : StyleArg) :
    FormatterState × Option ConfigError :=
  set_style reg { style := t0, styles_cache := [], last_text_cache := [] } a

/-- Body of `get_rtc_style` past the cache check: build a
`RichTextAttr` from the base, then apply the token's spec. -/
def buildStyle (t : Theme) (tok : TokenT) (base : RichTextAttr) : RichTextAttr :=
  let spec := t.style_for_token tok
  let font := base
  let font :=
    if spec.roman then { font with fontFamily := FONTFAMILY_ROMAN }
    else if spec.sans then { font with fontFamily := FONTFAMILY_SWISS }
    else if spec.mono then { font with fontFamily := FONTFAMILY_TELETYPE }
    else font
  let font := { font with
    fontStyle := if spec.italic then FONTSTYLE_ITALIC else FONTSTYLE_NORMAL }
  let font := { font with
    fontWeight := if spec.bold then FONTWEIGHT_BOLD else FONTWEIGHT_NORMAL }
  let font := { font with
    underlined := if spec.underline then TEXT_ATTR_UNDERLINE_SOLID else TEXT_ATTR_UNDERLINE_NONE }
  match spec.color with
  | some c => { font with textColour := some ("#" ++ c) }
  | none => font

/-- `get_rtc_style`: return the cached attr for the token when present,
otherwise resolve the token's spec against the active style and cache
the result.  The boolean records whether `style_for_token` was
consulted (false exactly on a cache hit). -/
def get_rtc_style (st : FormatterState) (tok : TokenT) (base : RichTextAttr) :
    RichTextAttr × FormatterState × Bool :=
  match dictGet st.styles_cache tok with
  | some v => (v, st, false)
  | none =>
      let font := buildStyle st.style tok base
      (font, { st with styles_cache := dictSet st.styles_cache tok font }, true)

/-- One element of the token source: a `(token, text)` span, or the
point at which the iterator raises. -/
inductive StreamItem
  | span (tok : TokenT) (text : Text)
  | err
deriving DecidableEq

/-- Calls `format` makes on the widget, in order. -/
inductive Ev
  | beginUndo
  | freeze
  | setBg (color : String)
  | setStyle (rngStart rngEnd : Nat) (attr : RichTextAttr)
  | endUndo
  | thaw
  | update
  | refresh
deriving DecidableEq

/-- The widget's last rendered text:
`self._last_text_cache.get(outfile.GetId(), "")`. -/
def cachedOf (st : FormatterState) (w : Widget) : Text :=
  (dictGet st.last_text_cache w.id).getD []

/-- The skip condition of `format` for the range `r = (Start, End)`:
`len(last_styled_text) > rng.End` and the two slices at the range
agree between the current text and the cached text. -/
def skipStrict (cached current : Text) (r : Nat × Nat) : Bool :=
  decide (r.2 < cached.length) &&
    decide (pySlice current r.1 r.2 = pySlice cached r.1 r.2)

/-- The token loop of `format`: walk the stream keeping the running
offset `i`; for each span compute the range, advance `i`, skip when
the cached text covers the range with an identical slice, otherwise
resolve the style through `get_rtc_style` and emit a `SetStyleEx`
event.  Hitting the iterator's raise point aborts with the events and
cache mutations made so far. -/
def runSpans (w : Widget) : FormatterState → Nat → List StreamItem →
    List Ev × FormatterState × Option Unit
  | st, _, [] => ([], st, none)
  | st, _, StreamItem.err :: _ => ([], st, some ())
  | st, i, StreamItem.span tok text :: rest =>
      if skipStrict (cachedOf st w) w.value (i, i + text.length) then
        runSpans w st (i + text.length) rest
      else
        (Ev.setStyle i (i + text.length) (get_rtc_style st tok w.basicStyle).1 ::
           (runSpans w (get_rtc_style st tok w.basicStyle).2.1 (i + text.length) rest).1,
         (runSpans w (get_rtc_style st tok w.basicStyle).2.1 (i + text.length) rest).2)

/-- `format`: begin undo suppression, freeze, set the background from
the active style, run the token loop, then (only on normal completion)
store the widget's current text in `_last_text_cache` and end the
scope with EndSuppressUndo / Thaw / Update / Refresh.  There is no
`try`/`finally` in the source, so when the loop raises the trailing
events never happen. -/
def format (st : FormatterState) (w : Widget) (items : List StreamItem) :
    List Ev × FormatterState × Option Unit :=
  match (runSpans w st 0 items).2.2 with
  | some e =>
      ([Ev.beginUndo, Ev.freeze, Ev.setBg st.style.background_color] ++
         (runSpans w st 0 items).1,
       (runSpans w st 0 items).2.1, some e)
  | none =>
      ([Ev.beginUndo, Ev.freeze, Ev.setBg st.style.background_color] ++
         (runSpans w st 0 items).1 ++
         [Ev.endUndo, Ev.thaw, Ev.update, Ev.refresh],
       { (runSpans w st 0 items).2.1 with
           last_text_cache :=
             dictSet (runSpans w st 0 items).2.1.last_text_cache w.id w.value },
       none)

/-- The half-open ranges of a span list starting at offset `i`:
span k starts at the cumulative length of the preceding texts. -/
def spanRanges : Nat → List (TokenT × Text) → List (Nat × Nat)
  | _, [] => []
  | i, (_, text) :: rest => (i, i + text.length) :: spanRanges (i + text.length) rest

/-- The ranges of the `SetStyleEx` events of a trace, in order. -/
def styleRanges : List Ev → List (Nat × Nat)
  | [] => []
  | Ev.setStyle s e _ :: rest => (s, e) :: styleRanges rest
  | _ :: rest => styleRanges rest

/-- Wrap a span list as stream items (a stream that never raises). -/
def spanItems (spans : List (TokenT × Text)) : List StreamItem :=
  spans.map (fun p => StreamItem.span p.1 p.2)

/-- Concatenation of the spans' texts (the lexer reconstruction). -/
def concatTexts : List (TokenT × Text) → Text
  | [] => []
  | (_, t) :: rest => t ++ concatTexts rest

/-! Model of `pygments_gui/util.py`. -/

/-- The missing-dependency sentinel bound to `wx` when the import
fails. -/
structure MissingPackage where
  pkg : String
  context : String
deriving DecidableEq

/-- `__getattr__`: every attribute access returns the sentinel itself,
without raising. -/
def getattr (m : MissingPackage) (_a : String) : MissingPackage :=
  m

/-- An attribute chain `m.a1.a2...an`, still without raising. -/
def getattrChain (m : MissingPackage) (attrs : List String) : MissingPackage :=
  attrs.foldl getattr m

/-- `__call__`: raises the labelled error naming the missing package. -/
def callMissing (m : MissingPackage) : Except String Unit :=
  Except.error (m.context ++ " requires " ++ m.pkg ++ " to be installed.")

/-! Concrete fixtures used by the closed theorems below. -/

def themeA : Theme := { id := 0, background_color := "ffffff", styles := [] }

def themeB : Theme := { id := 1, background_color := "000000", styles := [] }

def baseAttr : RichTextAttr :=
  { fontFamily := 0, fontStyle := 0, fontWeight := 0, underlined := 0, textColour := none }

def baseAttr2 : RichTextAttr :=
  { fontFamily := 9, fontStyle := 0, fontWeight := 0, underlined := 0, textColour := some "red" }

def st0 : FormatterState := { style := themeA, styles_cache := [], last_text_cache := [] }

def widget1 : Widget := { id := 1, value := ['i','f',' ','x'], basicStyle := baseAttr }

def ifxItems : List StreamItem :=
  spanItems [(0, ['i','f']), (1, [' ']), (2, ['x'])]

def widget2 : Widget := { id := 2, value := ['a','b'], basicStyle := baseAttr }

def st2 : FormatterState :=
  { style := themeA, styles_cache := [], last_text_cache := [(2, ['a','b'])] }

/-! Helper lemmas about the dictionaries and the formatter. -/

theorem dictGet_dictSet {K A : Type} [DecidableEq K] (d : List (K × A)) (k k2 : K) (v : A) :
    dictGet (dictSet d k v) k2 = if k2 = k then some v else dictGet d k2 := by
  induction d with
  | nil => simp [dictGet, dictSet]
  | cons hd tl ih =>
      obtain ⟨k0, v0⟩ := hd
      by_cases h : k = k0
      · subst h
        by_cases h2 : k2 = k <;> simp [dictGet, dictSet, h2]
      · by_cases h2 : k2 = k0
        · subst h2
          have hne : ¬ k2 = k := fun hh => h hh.symm
          simp [dictGet, dictSet, h, hne]
        · simp [dictGet, dictSet, h, h2, ih]

theorem get_rtc_style_last_text (st : FormatterState) (tok : TokenT) (b : RichTextAttr) :
    (get_rtc_style st tok b).2.1.last_text_cache = st.last_text_cache := by
  cases h : dictGet st.styles_cache tok <;> simp [get_rtc_style, h]

theorem cachedOf_get_rtc_style (st : FormatterState) (tok : TokenT) (b : RichTextAttr)
    (w : Widget) :
    cachedOf (get_rtc_style st tok b).2.1 w = cachedOf st w := by
  unfold cachedOf
  rw [get_rtc_style_last_text]

theorem get_rtc_style_snd (st : FormatterState) (tok : TokenT) (b1 b2 : RichTextAttr) :
    get_rtc_style (get_rtc_style st tok b1).2.1 tok b2 =
      ((get_rtc_style st tok b1).1, (get_rtc_style st tok b1).2.1, false) := by
  cases h : dictGet st.styles_cache tok with
  | some v => simp [get_rtc_style, h]
  | none => simp [get_rtc_style, h, dictGet_dictSet]

theorem get_rtc_style_styles_mono (st : FormatterState) (tok : TokenT) (b : RichTextAttr)
    (k : TokenT) (h : (dictGet st.styles_cache k).isSome = true) :
    (dictGet (get_rtc_style st tok b).2.1.styles_cache k).isSome = true := by
  cases hc : dictGet st.styles_cache tok with
  | some v => simpa [get_rtc_style, hc] using h
  | none =>
      simp only [get_rtc_style, hc]
      rw [dictGet_dictSet]
      by_cases hk : k = tok <;> simp [hk, h]

theorem runSpans_last_text (w : Widget) (items : List StreamItem) :
    ∀ (st : FormatterState) (i : Nat),
      (runSpans w st i items).2.1.last_text_cache = st.last_text_cache := by
  induction items with
  | nil => intro st i; simp [runSpans]
  | cons hd tl ih =>
      intro st i
      cases hd with
      | err => simp [runSpans]
      | span tok text =>
          by_cases h : skipStrict (cachedOf st w) w.value (i, i + text.length) = true
          · simp [runSpans, h, ih]
          · simp [runSpans, h, ih, get_rtc_style_last_text]

theorem runSpans_no_err (w : Widget) (spans : List (TokenT × Text)) :
    ∀ (st : FormatterState) (i : Nat),
      (runSpans w st i (spanItems spans)).2.2 = none := by
  induction spans with
  | nil => intro st i; simp [spanItems, runSpans]
  | cons hd tl ih =>
      intro st i
      obtain ⟨tok, text⟩ := hd
      by_cases h : skipStrict (cachedOf st w) w.value (i, i + text.length) = true
      · simp [spanItems, runSpans, h]
        simpa [spanItems] using ih st (i + text.length)
      · simp [spanItems, runSpans, h]
        simpa [spanItems] using ih (get_rtc_style st tok w.basicStyle).2.1 (i + text.length)

theorem runSpans_ranges (w : Widget) (spans : List (TokenT × Text)) :
    ∀ (st : FormatterState) (i : Nat),
      styleRanges (runSpans w st i (spanItems spans)).1 =
        (spanRanges i spans).filter (fun r => ! skipStrict (cachedOf st w) w.value r) := by
  induction spans with
  | nil => intro st i; simp [spanItems, runSpans, spanRanges, styleRanges]
  | cons hd tl ih =>
      intro st i
      obtain ⟨tok, text⟩ := hd
      by_cases h : skipStrict (cachedOf st w) w.value (i, i + text.length) = true
      · simp only [spanItems, List.map_cons, runSpans, h, if_true, spanRanges,
          List.filter_cons, h, Bool.not_true]
        simpa [spanItems] using ih st (i + text.length)
      · have hb : skipStrict (cachedOf st w) w.value (i, i + text.length) = false := by
          simpa using h
        simp only [spanItems, List.map_cons, runSpans, hb, Bool.false_eq_true, if_false,
          spanRanges, List.filter_cons, Bool.not_false, styleRanges]
        have := ih (get_rtc_style st tok w.basicStyle).2.1 (i + text.length)
        rw [cachedOf_get_rtc_style] at this
        simpa [spanItems] using this

theorem runSpans_events_setStyle (w : Widget) (items : List StreamItem) :
    ∀ (st : FormatterState) (i : Nat) (ev : Ev),
      ev ∈ (runSpans w st i items).1 → ∃ a b c, ev = Ev.setStyle a b c := by
  induction items with
  | nil => intro st i ev hmem; simp [runSpans] at hmem
  | cons hd tl ih =>
      intro st i ev hmem
      cases hd with
      | err => simp [runSpans] at hmem
      | span tok text =>
          by_cases h : skipStrict (cachedOf st w) w.value (i, i + text.length) = true
          · simp only [runSpans, h, if_true] at hmem
            exact ih st (i + text.length) ev hmem
          · have hb : skipStrict (cachedOf st w) w.value (i, i + text.length) = false := by
              simpa using h
            simp only [runSpans, hb, Bool.false_eq_true, if_false, List.mem_cons] at hmem
            cases hmem with
            | inl he => exact ⟨_, _, _, he⟩
            | inr he => exact ih _ (i + text.length) ev he

theorem styleRanges_append (a b : List Ev) :
    styleRanges (a ++ b) = styleRanges a ++ styleRanges b := by
  induction a with
  | nil => rfl
  | cons hd tl ih => cases hd <;> simp [styleRanges, ih]

theorem skipStrict_nil (current : Text) (r : Nat × Nat) :
    skipStrict [] current r = false := by
  simp [skipStrict]

/-- Only `SetStyleEx` events arise inside the token loop, so any other
event is absent from its trace. -/
theorem runSpans_not_mem (w : Widget) (items : List StreamItem) (st : FormatterState)
    (i : Nat) (ev : Ev) (h : ∀ a b c, ev ≠ Ev.setStyle a b c) :
    ev ∉ (runSpans w st i items).1 := by
  intro hmem
  obtain ⟨a, b, c, hc⟩ := runSpans_events_setStyle w items st i ev hmem
  exact h a b c hc

theorem runSpans_styles_mono (w : Widget) (items : List StreamItem) :
    ∀ (st : FormatterState) (i : Nat) (k : TokenT),
      (dictGet st.styles_cache k).isSome = true →
      (dictGet (runSpans w st i items).2.1.styles_cache k).isSome = true := by
  induction items with
  | nil => intro st i k h; simpa [runSpans] using h
  | cons hd tl ih =>
      intro st i k h
      cases hd with
      | err => simpa [runSpans] using h
      | span tok text =>
          by_cases hs : skipStrict (cachedOf st w) w.value (i, i + text.length) = true
          · simp only [runSpans, hs, if_true]
            exact ih st (i + text.length) k h
          · have hb : skipStrict (cachedOf st w) w.value (i, i + text.length) = false := by
              simpa using hs
            simp only [runSpans, hb, Bool.false_eq_true, if_false]
            exact ih _ (i + text.length) k (get_rtc_style_styles_mono st tok w.basicStyle k h)

/-! Claim theorems. -/

/-- C1: code-bug evidence.  The spec requires idempotence on unchanged
text: a second `format` call with the widget's text unchanged and an
equivalent token stream must perform zero SetStyleEx calls.  On the
spec's own end-to-end scenario (text "if x", spans "if", " ", "x"),
the first call applies the three ranges, but the second call still
applies one style, at the final span's range [3,4): the skip condition
`len(last_styled_text) > rng.End` is strict, and the final span's end
offset equals the cached text's length.  This contradicts both the
claim and the formatter's own docstring. -/
theorem c1_second_call_restyles_final_span :
    styleRanges (format st0 widget1 ifxItems).1 = [(0, 2), (2, 3), (3, 4)] ∧
    styleRanges (format (format st0 widget1 ifxItems).2.1 widget1 ifxItems).1 = [(3, 4)] := by
  decide

/-- C2: counterexample.  The claim states a span is skipped exactly
when the cached text is at least as long as the span's end offset and
the slices agree.  With cached text "ab", current text "ab" and the
single span (tok, "ab"), the claim's condition holds (length 2 ≥ end
offset 2, identical slices), yet `format` applies a style over [0,2):
the source condition is strictly greater, not at-least. -/
theorem c2_counterexample :
    ((cachedOf st2 widget2).length ≥ 2 ∧
     pySlice widget2.value 0 2 = pySlice (cachedOf st2 widget2) 0 2) ∧
    styleRanges (format st2 widget2 [StreamItem.span 0 ['a','b']]).1 = [(0, 2)] := by
  decide

/-- C2 (amended): a span with half-open range [offset, offset+len) is
skipped exactly when the widget's cached last-rendered text is
STRICTLY longer than the span's end offset and the slice over the
range is identical between the cached text and the current text;
otherwise its style is resolved and applied.  Stated as: the SetStyleEx
ranges of a `format` call are exactly the cumulative span ranges
filtered by the negation of that strict skip condition. -/
theorem c2_skip_condition_strict (st : FormatterState) (w : Widget)
    (spans : List (TokenT × Text)) :
    styleRanges (format st w (spanItems spans)).1 =
      (spanRanges 0 spans).filter (fun r => ! skipStrict (cachedOf st w) w.value r) := by
  have hno := runSpans_no_err w spans st 0
  simp only [format, hno]
  rw [styleRanges_append, styleRanges_append]
  simp [styleRanges, runSpans_ranges]

/-- C4: full coverage on first call.  For a widget with no
`_last_text_cache` entry, every span triggers exactly one SetStyleEx
call, and span k's range starts at the cumulative length of the
preceding spans' texts: the emitted ranges are exactly `spanRanges`. -/
theorem c4_full_coverage_first_call (st : FormatterState) (w : Widget)
    (spans : List (TokenT × Text)) (h : dictGet st.last_text_cache w.id = none) :
    styleRanges (format st w (spanItems spans)).1 = spanRanges 0 spans := by
  have hc : cachedOf st w = [] := by simp [cachedOf, h]
  have hno := runSpans_no_err w spans st 0
  simp only [format, hno]
  rw [styleRanges_append, styleRanges_append]
  simp [styleRanges, runSpans_ranges, hc, skipStrict_nil]

/-- C4 witness: the first call of the end-to-end scenario, with no
prior cache entry, applies exactly the three cumulative ranges. -/
theorem c4_full_coverage_first_call_witness :
    styleRanges (format st0 widget1 (spanItems [(0, ['i','f']), (1, [' ']), (2, ['x'])])).1 =
      spanRanges 0 [(0, ['i','f']), (1, [' ']), (2, ['x'])] :=
  c4_full_coverage_first_call st0 widget1 [(0, ['i','f']), (1, [' ']), (2, ['x'])] (by decide)

/-- C8: counterexample.  The claim requires a defined or propagated
error on a stream violating the lexer contract.  With widget text "ab"
and the single span "abc" (concatenation "abc" ≠ "ab"), `format`
completes without any error and silently applies a style over [0,3),
past the end of the text. -/
theorem c8_counterexample :
    concatTexts [(0, ['a','b','c'])] ≠ widget2.value ∧
    (format st0 widget2 [StreamItem.span 0 ['a','b','c']]).2.2 = none ∧
    styleRanges (format st0 widget2 [StreamItem.span 0 ['a','b','c']]).1 = [(0, 3)] := by
  decide

/-- C3: counterexample.  The claim states the undo-suppression and
redraw-freeze scope acquired at the start of `format` is released on
every exit path.  On a token stream that raises immediately, `format`
propagates the error after having emitted BeginSuppressUndo and Freeze
but neither EndSuppressUndo nor Thaw: the source has no try/finally,
so the scope stays held. -/
theorem c3_counterexample :
    (format st0 widget1 [StreamItem.err]).2.2 = some () ∧
    Ev.beginUndo ∈ (format st0 widget1 [StreamItem.err]).1 ∧
    Ev.freeze ∈ (format st0 widget1 [StreamItem.err]).1 ∧
    Ev.endUndo ∉ (format st0 widget1 [StreamItem.err]).1 ∧
    Ev.thaw ∉ (format st0 widget1 [StreamItem.err]).1 := by
  decide

/-- C3 (amended): the undo/freeze scope is released only on normal
completion.  When `format` completes without error its trace holds
exactly one BeginSuppressUndo matched by one EndSuppressUndo and one
Freeze matched by one Thaw; when the token stream raises, the error
propagates with the scope still held: the trace holds BeginSuppressUndo
and Freeze but no EndSuppressUndo and no Thaw. -/
theorem c3_scope_release (st : FormatterState) (w : Widget) (items : List StreamItem) :
    ((format st w items).2.2 = none →
       ((format st w items).1.count Ev.beginUndo = 1 ∧
        (format st w items).1.count Ev.endUndo = 1 ∧
        (format st w items).1.count Ev.freeze = 1 ∧
        (format st w items).1.count Ev.thaw = 1)) ∧
    ((format st w items).2.2 = some () →
       (Ev.beginUndo ∈ (format st w items).1 ∧
        Ev.freeze ∈ (format st w items).1 ∧
        Ev.endUndo ∉ (format st w items).1 ∧
        Ev.thaw ∉ (format st w items).1)) := by
  have hbe : Ev.beginUndo ∉ (runSpans w st 0 items).1 :=
    runSpans_not_mem w items st 0 Ev.beginUndo (by intro a b c; simp)
  have hen : Ev.endUndo ∉ (runSpans w st 0 items).1 :=
    runSpans_not_mem w items st 0 Ev.endUndo (by intro a b c; simp)
  have hfr : Ev.freeze ∉ (runSpans w st 0 items).1 :=
    runSpans_not_mem w items st 0 Ev.freeze (by intro a b c; simp)
  have hth : Ev.thaw ∉ (runSpans w st 0 items).1 :=
    runSpans_not_mem w items st 0 Ev.thaw (by intro a b c; simp)
  cases hr : (runSpans w st 0 items).2.2 with
  | none =>
      constructor
      · intro _
        simp [format, hr, List.count_append, List.count_cons,
          List.count_eq_zero_of_not_mem hbe, List.count_eq_zero_of_not_mem hen,
          List.count_eq_zero_of_not_mem hfr, List.count_eq_zero_of_not_mem hth]
      · intro hcontra
        simp [format, hr] at hcontra
  | some u =>
      constructor
      · intro hcontra
        simp [format, hr] at hcontra
      · intro _
        simp [format, hr, hbe, hen, hfr, hth]

/-- C3 witness: on the end-to-end scenario the call completes and the
scope is balanced; on the raising stream the scope stays held. -/
theorem c3_scope_release_witness :
    (format st0 widget1 ifxItems).1.count Ev.endUndo = 1 ∧
    (format st0 widget1 ifxItems).1.count Ev.thaw = 1 ∧
    Ev.endUndo ∉ (format st0 widget1 [StreamItem.err]).1 :=
  ⟨((c3_scope_release st0 widget1 ifxItems).1 (by decide)).2.1,
   ((c3_scope_release st0 widget1 ifxItems).1 (by decide)).2.2.2,
   ((c3_scope_release st0 widget1 [StreamItem.err]).2 (by decide)).2.2.1⟩

/-- C8 (amended): `format` performs no validation of the
reconstruction invariant.  For every stream of spans (one that does
not itself raise), `format` completes without error, whether or not
the concatenation of the span texts equals the widget's text; styles
are applied silently at the cumulative-offset ranges. -/
theorem c8_no_error_on_malformed_stream (st : FormatterState) (w : Widget)
    (spans : List (TokenT × Text)) :
    (format st w (spanItems spans)).2.2 = none := by
  have hno := runSpans_no_err w spans st 0
  simp [format, hno]

/-- C5: cache-clearing invariant.  `set_style` either clears both
caches or leaves both untouched; it leaves them untouched when the
resolved style equals the current one, and clears both (storing the
new style in the same step) exactly when it differs; a resolution
error leaves the whole state unchanged.  Neither `format` nor
`get_rtc_style` ever removes an entry from either cache. -/
theorem c5_cache_clearing_invariant :
    (∀ (reg : List (String × Theme)) (st : FormatterState) (a : StyleArg),
        ((set_style reg st a).1.styles_cache = [] ∧
         (set_style reg st a).1.last_text_cache = []) ∨
        ((set_style reg st a).1.styles_cache = st.styles_cache ∧
         (set_style reg st a).1.last_text_cache = st.last_text_cache)) ∧
    (∀ (reg : List (String × Theme)) (st : FormatterState) (a : StyleArg) (t : Theme),
        resolveStyle reg a = Except.ok t → t = st.style →
        (set_style reg st a).1.styles_cache = st.styles_cache ∧
        (set_style reg st a).1.last_text_cache = st.last_text_cache) ∧
    (∀ (reg : List (String × Theme)) (st : FormatterState) (a : StyleArg) (t : Theme),
        resolveStyle reg a = Except.ok t → t ≠ st.style →
        (set_style reg st a).1 =
          { style := t, styles_cache := [], last_text_cache := [] }) ∧
    (∀ (reg : List (String × Theme)) (st : FormatterState) (a : StyleArg),
        (set_style reg st a).2.isSome = true → (set_style reg st a).1 = st) ∧
    (∀ (st : FormatterState) (w : Widget) (items : List StreamItem) (k : Nat),
        (dictGet st.last_text_cache k).isSome = true →
        (dictGet (format st w items).2.1.last_text_cache k).isSome = true) ∧
    (∀ (st : FormatterState) (w : Widget) (items : List StreamItem) (k : TokenT),
        (dictGet st.styles_cache k).isSome = true →
        (dictGet (format st w items).2.1.styles_cache k).isSome = true) ∧
    (∀ (st : FormatterState) (tok : TokenT) (b : RichTextAttr),
        (get_rtc_style st tok b).2.1.last_text_cache = st.last_text_cache) ∧
    (∀ (st : FormatterState) (tok : TokenT) (b : RichTextAttr) (k : TokenT),
        (dictGet st.styles_cache k).isSome = true →
        (dictGet (get_rtc_style st tok b).2.1.styles_cache k).isSome = true) := by
  refine ⟨?_, ?_, ?_, ?_, ?_, ?_, get_rtc_style_last_text, get_rtc_style_styles_mono⟩
  · intro reg st a
    cases hres : resolveStyle reg a with
    | error e => right; simp [set_style, hres]
    | ok t =>
        by_cases ht : t = st.style
        · right; simp [set_style, hres, ht]
        · left; simp [set_style, hres, ht]
  · intro reg st a t hres ht
    simp [set_style, hres, ht]
  · intro reg st a t hres ht
    simp [set_style, hres, ht]
  · intro reg st a h
    cases hres : resolveStyle reg a with
    | error e => simp [set_style, hres]
    | ok t =>
        exfalso
        by_cases ht : t = st.style <;> simp [set_style, hres, ht] at h
  · intro st w items k h
    cases hr : (runSpans w st 0 items).2.2 with
    | none =>
        simp only [format, hr]
        rw [dictGet_dictSet]
        by_cases hk : k = w.id
        · simp [hk]
        · simpa [hk, runSpans_last_text] using h
    | some u => simpa [format, hr, runSpans_last_text] using h
  · intro st w items k h
    cases hr : (runSpans w st 0 items).2.2 with
    | none =>
        simp only [format, hr]
        exact runSpans_styles_mono w items st 0 k h
    | some u =>
        simp only [format, hr]
        exact runSpans_styles_mono w items st 0 k h

/-- C5 witness: a differing theme clears both caches while storing the
new theme, and `format` keeps an existing text-cache entry. -/
theorem c5_cache_clearing_invariant_witness :
    (set_style [] st2 (StyleArg.theme themeB)).1 =
      { style := themeB, styles_cache := [], last_text_cache := [] } ∧
    (dictGet (format st2 widget2 []).2.1.last_text_cache 2).isSome = true :=
  ⟨c5_cache_clearing_invariant.2.2.1 [] st2 (StyleArg.theme themeB) themeB rfl (by decide),
   c5_cache_clearing_invariant.2.2.2.2.1 st2 widget2 [] 2 (by decide)⟩

/-- C6: style-resolution cache correctness.  A second `get_rtc_style`
call with the same token and base returns the identical attr without
consulting `style_for_token` (the query flag is false); after
`set_style` installs a genuinely different theme the next call
resolves freshly against the new theme (query flag true). -/
theorem c6_resolve_style_cache_correct (st : FormatterState) (tok : TokenT)
    (base : RichTextAttr) (reg : List (String × Theme)) (t : Theme)
    (hne : t ≠ st.style) :
    ((get_rtc_style (get_rtc_style st tok base).2.1 tok base).1 =
        (get_rtc_style st tok base).1 ∧
     (get_rtc_style (get_rtc_style st tok base).2.1 tok base).2.2 = false) ∧
    ((get_rtc_style (set_style reg st (StyleArg.theme t)).1 tok base).1 =
        buildStyle t tok base ∧
     (get_rtc_style (set_style reg st (StyleArg.theme t)).1 tok base).2.2 = true) := by
  have hs : (set_style reg st (StyleArg.theme t)).1 =
      { style := t, styles_cache := [], last_text_cache := [] } := by
    simp [set_style, resolveStyle, hne]
  refine ⟨⟨?_, ?_⟩, ?_, ?_⟩
  · rw [get_rtc_style_snd]
  · rw [get_rtc_style_snd]
  · rw [hs]; simp [get_rtc_style, dictGet]
  · rw [hs]; simp [get_rtc_style, dictGet]

/-- C6 witness: concrete cache hit on the second call, and a fresh
query after switching from themeA to themeB. -/
theorem c6_resolve_style_cache_correct_witness :
    (get_rtc_style (get_rtc_style st0 0 baseAttr).2.1 0 baseAttr).2.2 = false ∧
    (get_rtc_style (set_style [] st0 (StyleArg.theme themeB)).1 0 baseAttr).2.2 = true :=
  ⟨(c6_resolve_style_cache_correct st0 0 baseAttr [] themeB (by decide)).1.2,
   (c6_resolve_style_cache_correct st0 0 baseAttr [] themeB (by decide)).2.2⟩

/-- C7: theme resolution errors.  `set_style` (and construction, which
runs `set_style` on a fresh state) fails synchronously whenever given
a name missing from the registry or a value that is not a theme
object, and on failure the current theme and both caches are left
unchanged; a theme object or a registered name never fails. -/
theorem c7_theme_resolution_errors :
    (∀ (reg : List (String × Theme)) (st : FormatterState) (s : String),
        dictGet reg s = none →
        (set_style reg st (StyleArg.name s)).2.isSome = true ∧
        (set_style reg st (StyleArg.name s)).1 = st) ∧
    (∀ (reg : List (String × Theme)) (st : FormatterState) (d : String),
        (set_style reg st (StyleArg.other d)).2.isSome = true ∧
        (set_style reg st (StyleArg.other d)).1 = st) ∧
    (∀ (reg : List (String × Theme)) (st : FormatterState) (t : Theme),
        (set_style reg st (StyleArg.theme t)).2 = none) ∧
    (∀ (reg : List (String × Theme)) (st : FormatterState) (s : String) (t : Theme),
        dictGet reg s = some t →
        (set_style reg st (StyleArg.name s)).2 = none) ∧
    (∀ (reg : List (String × Theme)) (t0 : Theme) (s : String),
        dictGet reg s = none →
        (initFormatter reg t0 (StyleArg.name s)).2.isSome = true ∧
        (initFormatter reg t0 (StyleArg.name s)).1 =
          { style := t0, styles_cache := [], last_text_cache := [] }) ∧
    (∀ (reg : List (String × Theme)) (t0 : Theme) (d : String),
        (initFormatter reg t0 (StyleArg.other d)).2.isSome = true ∧
        (initFormatter reg t0 (StyleArg.other d)).1 =
          { style := t0, styles_cache := [], last_text_cache := [] }) := by
  refine ⟨?_, ?_, ?_, ?_, ?_, ?_⟩
  · intro reg st s h
    simp [set_style, resolveStyle, h]
  · intro reg st d
    simp [set_style, resolveStyle]
  · intro reg st t
    by_cases ht : t = st.style <;> simp [set_style, resolveStyle, ht]
  · intro reg st s t h
    by_cases ht : t = st.style <;> simp [set_style, resolveStyle, h, ht]
  · intro reg t0 s h
    simp [initFormatter, set_style, resolveStyle, h]
  · intro reg t0 d
    simp [initFormatter, set_style, resolveStyle]

/-- C7 witness: an unknown name fails on an empty registry, and
construction with it keeps the fresh empty state. -/
theorem c7_theme_resolution_errors_witness :
    (set_style [] st0 (StyleArg.name "nope")).2.isSome = true ∧
    (initFormatter [] themeA (StyleArg.name "nope")).1 =
      { style := themeA, styles_cache := [], last_text_cache := [] } :=
  ⟨(c7_theme_resolution_errors.1 [] st0 "nope" rfl).1,
   (c7_theme_resolution_errors.2.2.2.2.1 [] themeA "nope" rfl).2⟩

/-- C9: missing-dependency sentinel.  Every attribute chain on a
`MissingPackage` sentinel returns the sentinel itself without raising
(so module import and mere attribute access succeed), and calling the
result raises the labelled error naming the missing package. -/
theorem c9_missing_package_sentinel (pkg ctx : String) (attrs : List String) :
    getattrChain (MissingPackage.mk pkg ctx) attrs = MissingPackage.mk pkg ctx ∧
    callMissing (getattrChain (MissingPackage.mk pkg ctx) attrs) =
      Except.error (ctx ++ " requires " ++ pkg ++ " to be installed.") := by
  have h : ∀ (m : MissingPackage) (l : List String), getattrChain m l = m := by
    intro m l
    induction l generalizing m with
    | nil => rfl
    | cons hd tl ih =>
        simp only [getattrChain, List.foldl_cons, getattr]
        exact ih m
  exact ⟨h _ _, by rw [h]; rfl⟩

/-- C10: the style cache is keyed by token only.  When a token is not
yet cached, the first `get_rtc_style` call resolves it against the
first base; a later call with the same token but a different base
returns that same attr (resolved against the first base), does not
consult the theme again, and leaves the state unchanged. -/
theorem c10_style_cache_ignores_base (st : FormatterState) (tok : TokenT)
    (b1 b2 : RichTextAttr) (h : dictGet st.styles_cache tok = none) :
    (get_rtc_style st tok b1).1 = buildStyle st.style tok b1 ∧
    (get_rtc_style (get_rtc_style st tok b1).2.1 tok b2).1 =
      buildStyle st.style tok b1 ∧
    (get_rtc_style (get_rtc_style st tok b1).2.1 tok b2).2.2 = false ∧
    (get_rtc_style (get_rtc_style st tok b1).2.1 tok b2).2.1 =
      (get_rtc_style st tok b1).2.1 := by
  have h1 : (get_rtc_style st tok b1).1 = buildStyle st.style tok b1 := by
    simp [get_rtc_style, h]
  refine ⟨h1, ?_, ?_, ?_⟩ <;> simp [get_rtc_style_snd, h1]

/-- C10 witness: with distinct bases, the second call returns the attr
resolved against the first base. -/
theorem c10_style_cache_ignores_base_witness :
    (get_rtc_style (get_rtc_style st0 0 baseAttr).2.1 0 baseAttr2).1 =
      buildStyle st0.style 0 baseAttr :=
  (c10_style_cache_ignores_base st0 0 baseAttr baseAttr2 rfl).2.1

end PygmentsGui
